import Mathlib

/-!
Shallow embedding of the "Red Light Green Light" game server
(`src/server.js`).  The server keeps one mutable `game` object and a
registry of players in a JS `Map` (insertion-ordered, `set` on an
existing key overwrites in place).  All socket handlers and timer
callbacks run one at a time on the Node event loop, so each is embedded
as a pure function `Game → Game`; an inductive `Event` type and a `step`
function give the transition system, and `Reachable` its reachable
states.

Timer scheduling (`setTimeout`/`setInterval`) is modelled by recording
what was armed in ghost fields (`lightTimer`, `graceTimer`) and by
letting the corresponding `Event` fire at any time; every callback in
the source re-checks `game.phase`/`game.light` before acting, which is
preserved here, so firing an event at a stale moment is a no-op exactly
as in the source.  Socket emissions carry no state, except the terminal
`gameOver` broadcast, whose payload (winner or none) is recorded in the
ghost field `announced`.
-/

/-- A player object, as built by `createPlayer` in `src/server.js`.
`id` is the (opaque) socket id, `progress` a real-valued score modelled
as a rational, `finishedAt` the `Date.now()` stamp when the win
threshold was reached. -/
structure Player where
  id : Nat
  name : String
  progress : ℚ
  alive : Bool
  holding : Bool
  eliminated : Bool
  finishedAt : Option Nat
deriving DecidableEq

/-- `game.phase` values (`lobby | countdown | playing | roundEnd | gameOver`). -/
inductive Phase where
  | lobby
  | countdown
  | playing
  | roundEnd
  | gameOver
deriving DecidableEq

/-- `game.light` values (`red | green`). -/
inductive Light where
  | red
  | green
deriving DecidableEq

/-- The `game` singleton.  `players` models the JS `Map` as an
insertion-ordered list (keys are the players' `id` fields).
`lightTimer` records the target of the pending light-flip timeout,
`graceTimer` whether the grace-period sweep is armed, and `announced`
the last `gameOver` emission: `some none` = game over with no winner,
`some (some i)` = game over won by player `i`. -/
structure Game where
  phase : Phase
  light : Light
  players : List Player
  round : Nat
  eliminationPending : Bool
  lightTimer : Option Light
  graceTimer : Bool
  announced : Option (Option Nat)
deriving DecidableEq

/-- `game.progressToWin` (100 progress points to finish). -/
def progressToWin : ℚ := 100

/-- `game.progressRate` (2.5 progress per 100 ms tick while holding
during green). -/
def progressRate : ℚ := 5 / 2

/-- Whitespace as recognized by JS `trim` (restricted to the ASCII
white space characters, which is all the model needs). -/
def isSpaceChar (c : Char) : Bool :=
  c = ' ' ∨ c = '\t' ∨ c = '\n' ∨ c = '\r'

/-- Model of JS `String.prototype.trim`: strip leading and trailing
whitespace. -/
def trimStr (s : String) : String :=
  ⟨((s.data.dropWhile isSpaceChar).reverse.dropWhile isSpaceChar).reverse⟩

/-- Model of JS `String.prototype.substring(0, n)`. -/
def takeStr (s : String) (n : Nat) : String :=
  ⟨s.data.take n⟩

/-- `createPlayer(id, name)`: fresh player, name truncated to 15
characters. -/
def createPlayer (id : Nat) (name : String) : Player :=
  { id := id
    name := takeStr name 15
    progress := 0
    alive := true
    holding := false
    eliminated := false
    finishedAt := none }

/-- The per-player reset performed by `resetGame` and by the
`startGame` socket handler: per-match fields back to pristine, identity
untouched. -/
def resetPlayer (p : Player) : Player :=
  { p with
    progress := 0
    alive := true
    holding := false
    eliminated := false
    finishedAt := none }

/-- `game.players.get(sid)`: first (and in reachable states only) entry
with the given id. -/
def findP (ps : List Player) (sid : Nat) : Option Player :=
  ps.find? (fun p => p.id = sid)

/-- `game.players.set(p.id, p)`: overwrite in place if the key is
present (JS `Map.set` keeps the original position), else append. -/
def setP : List Player → Player → List Player
  | [], p => [p]
  | q :: rest, p => if q.id = p.id then p :: rest else q :: setP rest p

/-- In-place mutation of the player object stored under `sid` (JS code
mutates the object returned by `Map.get`). -/
def updP : List Player → Nat → (Player → Player) → List Player
  | [], _, _ => []
  | q :: rest, sid, f => if q.id = sid then f q :: rest else q :: updP rest sid f

/-- `game.players.delete(sid)`. -/
def delP : List Player → Nat → List Player
  | [], _ => []
  | q :: rest, sid => if q.id = sid then rest else q :: delP rest sid

/-- Initial state of the `game` object literal at module load. -/
def initGame : Game :=
  { phase := .lobby
    light := .red
    players := []
    round := 0
    eliminationPending := false
    lightTimer := none
    graceTimer := false
    announced := none }

/-- `endGame(winner)`: phase to `gameOver`, all timers cleared, light
forced red, `gameOver` broadcast with the winner (or null) recorded in
`announced`. -/
def endGame (g : Game) (winner : Option Player) : Game :=
  { g with
    phase := .gameOver
    light := .red
    lightTimer := none
    graceTimer := false
    announced := some (winner.map (fun w => w.id)) }

/-- `switchToGreen()`: no-op unless playing; sets light green, clears
`eliminationPending`, schedules `switchToRed`. -/
def switchToGreen (g : Game) : Game :=
  if g.phase ≠ .playing then g
  else
    { g with
      light := .green
      eliminationPending := false
      lightTimer := some .red }

/-- `switchToRed()`: no-op unless playing; sets light red, sets
`eliminationPending`, arms the grace-period sweep. -/
def switchToRed (g : Game) : Game :=
  if g.phase ≠ .playing then g
  else
    { g with
      light := .red
      eliminationPending := true
      graceTimer := true }

/-- The per-player body of the `eliminateHolders` sweep: a player who is
alive and holding is marked dead; everyone else is untouched. -/
def strikePlayer (p : Player) : Player :=
  if p.alive = true ∧ p.holding = true then
    { p with alive := false, eliminated := true }
  else p

/-- The registry after the sweep's `forEach` body, with the fired grace
timer consumed. -/
def sweptGame (g : Game) : Game :=
  { g with players := g.players.map strikePlayer, graceTimer := false }

/-- `eliminateHolders()`: guarded on `playing`/`red`; sweeps all
alive-and-holding players, then ends the game (no winner / survival
winner) or schedules the next `switchToGreen` depending on how many
players remain alive.  The source tests `alive.length === 0` and
`alive.length === 1` with `alive[0]`; the list match below is the same
case split. -/
def eliminateHolders (g : Game) : Game :=
  if g.phase ≠ .playing ∨ g.light ≠ .red then g
  else
    match (sweptGame g).players.filter (fun p => p.alive) with
    | [] => endGame (sweptGame g) none
    | [w] => endGame (sweptGame g) (some w)
    | _ => { sweptGame g with lightTimer := some .green }

/-- Key used by `checkForWinner`'s comparator `a.finishedAt - b.finishedAt`
(all sorted players have a non-null `finishedAt`). -/
def finKey (p : Player) : Nat :=
  p.finishedAt.getD 0

/-- The ascending comparator of `checkForWinner`'s sort. -/
def finLE (a b : Player) : Prop :=
  finKey a ≤ finKey b

instance : DecidableRel finLE :=
  fun a b => Nat.decLe (finKey a) (finKey b)

/-- `checkForWinner()`: filter the finishers, stable-sort them ascending
by `finishedAt` (JS `Array.prototype.sort` is stable; `insertionSort`
with a `≤` comparator is the stable ascending sort), and end the game
with the first one; no-op when nobody has finished. -/
def checkForWinner (g : Game) : Game :=
  match (List.insertionSort finLE (g.players.filter (fun p => p.finishedAt.isSome))).head? with
  | none => g
  | some w => endGame g (some w)

/-- Whether this tick pushes `p` across the win threshold (the source
sets `someoneFinished = true` exactly in this case). -/
def playerFinishesNow (p : Player) : Prop :=
  p.alive = true ∧ p.holding = true ∧ p.finishedAt = none ∧
    progressToWin ≤ min progressToWin (p.progress + progressRate)

instance (p : Player) : Decidable (playerFinishesNow p) := by
  unfold playerFinishesNow
  infer_instance

/-- The per-player body of the progress interval: alive, holding,
unfinished players gain `progressRate`, clamped at `progressToWin`;
hitting the threshold stamps `finishedAt` with the current time. -/
def tickPlayer (now : Nat) (p : Player) : Player :=
  if p.alive = true ∧ p.holding = true ∧ p.finishedAt = none then
    if progressToWin ≤ min progressToWin (p.progress + progressRate) then
      { p with
        progress := min progressToWin (p.progress + progressRate)
        finishedAt := some now }
    else { p with progress := min progressToWin (p.progress + progressRate) }
  else p

/-- One firing of the 100 ms progress interval (`startProgressTracking`):
idle unless `playing` and `green`; otherwise advance every player and,
if someone finished this tick, resolve the winner. -/
def progressTick (g : Game) (now : Nat) : Game :=
  if g.phase ≠ .playing ∨ g.light ≠ .green then g
  else if ∃ p ∈ g.players, playerFinishesNow p then
    checkForWinner { g with players := g.players.map (tickPlayer now) }
  else { g with players := g.players.map (tickPlayer now) }

/-- The mutation `player.holding = true; player.alive = false;
player.eliminated = true` of `holdStart`'s immediate-strike branch. -/
def strikeHold (q : Player) : Player :=
  { q with holding := true, alive := false, eliminated := true }

/-- The mutation `player.holding = true` of `holdStart`'s ordinary
branch. -/
def holdOn (q : Player) : Player :=
  { q with holding := true }

/-- The mutation `player.holding = false` of `holdEnd`. -/
def holdOff (q : Player) : Player :=
  { q with holding := false }

/-- The mutation `player.alive = false; player.holding = false` of the
`disconnect` handler during an active match. -/
def forfeit (q : Player) : Player :=
  { q with alive := false, holding := false }

/-- The `holdStart` socket handler: ignored for unknown, dead, or
out-of-phase players; sets `holding`; starting to hold during red after
the grace period has elapsed is immediately fatal. -/
def holdStart (g : Game) (sid : Nat) : Game :=
  match findP g.players sid with
  | none => g
  | some p =>
    if p.alive = false ∨ g.phase ≠ .playing then g
    else if g.light = .red ∧ g.eliminationPending = false then
      { g with players := updP g.players sid strikeHold }
    else
      { g with players := updP g.players sid holdOn }

/-- The `holdEnd` socket handler: ignored for unknown players; otherwise
clears `holding` (no aliveness check in the source). -/
def holdEnd (g : Game) (sid : Nat) : Game :=
  match findP g.players sid with
  | none => g
  | some _ => { g with players := updP g.players sid holdOff }

/-- The `joinGame` socket handler: rejected outside lobby or with a
blank name; otherwise `Map.set` of a fresh player under the socket id
(overwriting in place any entry already under that id). -/
def joinGame (g : Game) (sid : Nat) (name : String) : Game :=
  if g.phase ≠ .lobby then g
  else if (trimStr name).data.length = 0 then g
  else { g with players := setP g.players (createPlayer sid (trimStr name)) }

/-- The `startGame` socket handler together with the inner `startGame()`:
only from lobby/gameOver; resets every player, then (with at least one
player) moves to countdown, bumps the round, forces red. -/
def startGameCmd (g : Game) : Game :=
  if g.phase = .lobby ∨ g.phase = .gameOver then
    if (g.players.map resetPlayer).length < 1 then
      { g with players := g.players.map resetPlayer }
    else
      { g with
        players := g.players.map resetPlayer
        phase := .countdown
        round := g.round + 1
        light := .red }
  else g

/-- The countdown interval reaching zero: phase to `playing`, progress
tracking started, `switchToGreen()` invoked.  The interval only exists
while the phase is `countdown` (it is cleared by itself and by
`resetGame`), hence the guard. -/
def countdownFinish (g : Game) : Game :=
  if g.phase = .countdown then switchToGreen { g with phase := .playing }
  else g

/-- `resetGame()`: back to lobby, light red, round zeroed, all timers
cleared, every player reset in place; membership untouched. -/
def resetGame (g : Game) : Game :=
  { g with
    phase := .lobby
    light := .red
    round := 0
    lightTimer := none
    graceTimer := false
    players := g.players.map resetPlayer }

/-- The `kickPlayer` socket handler: unconditional `Map.delete`. -/
def kickPlayer (g : Game) (pid : Nat) : Game :=
  { g with players := delP g.players pid }

/-- The socket `disconnect` handler: unknown ids ignored; in lobby the
player is removed, otherwise marked dead and not holding. -/
def disconnect (g : Game) (sid : Nat) : Game :=
  match findP g.players sid with
  | none => g
  | some _ =>
    if g.phase = .lobby then { g with players := delP g.players sid }
    else { g with players := updP g.players sid forfeit }

/-- Every handler and timer callback of the server, with its inputs. -/
inductive Event where
  | join (sid : Nat) (name : String)
  | holdStart (sid : Nat)
  | holdEnd (sid : Nat)
  | tick (now : Nat)
  | toGreen
  | toRed
  | sweep
  | start
  | countdownDone
  | reset
  | kick (pid : Nat)
  | leave (sid : Nat)

/-- One event-loop turn. -/
def step (g : Game) : Event → Game
  | .join sid name => joinGame g sid name
  | .holdStart sid => holdStart g sid
  | .holdEnd sid => holdEnd g sid
  | .tick now => progressTick g now
  | .toGreen => switchToGreen g
  | .toRed => switchToRed g
  | .sweep => eliminateHolders g
  | .start => startGameCmd g
  | .countdownDone => countdownFinish g
  | .reset => resetGame g
  | .kick pid => kickPlayer g pid
  | .leave sid => disconnect g sid

/-- States reachable from server start by any interleaving of handler
and timer firings. -/
inductive Reachable : Game → Prop where
  | init : Reachable initGame
  | step (g : Game) (e : Event) : Reachable g → Reachable (step g e)

/-! ### Registry lemmas -/

theorem findP_cons (q : Player) (rest : List Player) (sid : Nat) :
    findP (q :: rest) sid = if q.id = sid then some q else findP rest sid := by
  by_cases h : q.id = sid <;> simp [findP, List.find?_cons, h]

theorem findP_updP (ps : List Player) (sid : Nat) (f : Player → Player)
    (hid : ∀ p, (f p).id = p.id) :
    findP (updP ps sid f) sid = (findP ps sid).map f := by
  induction ps with
  | nil => rfl
  | cons q rest ih =>
    by_cases h : q.id = sid
    · simp [updP, if_pos h, findP_cons, hid q, h]
    · simp [updP, if_neg h, findP_cons, h, ih]

theorem findP_map (ps : List Player) (sid : Nat) (f : Player → Player)
    (hid : ∀ p, (f p).id = p.id) :
    findP (ps.map f) sid = (findP ps sid).map f := by
  induction ps with
  | nil => rfl
  | cons q rest ih =>
    by_cases h : q.id = sid
    · simp [findP_cons, hid q, h]
    · simp [findP_cons, hid q, h, ih]

theorem mem_updP (ps : List Player) (sid : Nat) (f : Player → Player) (q : Player)
    (hq : q ∈ updP ps sid f) : q ∈ ps ∨ ∃ p, p ∈ ps ∧ q = f p := by
  induction ps with
  | nil => simp [updP] at hq
  | cons r rest ih =>
    by_cases h : r.id = sid
    · simp only [updP, if_pos h, List.mem_cons] at hq
      rcases hq with hq | hq
      · exact Or.inr ⟨r, List.mem_cons_self r rest, hq⟩
      · exact Or.inl (List.mem_cons_of_mem r hq)
    · simp only [updP, if_neg h, List.mem_cons] at hq
      rcases hq with hq | hq
      · exact Or.inl (hq ▸ List.mem_cons_self r rest)
      · rcases ih hq with h1 | ⟨p, hp, he⟩
        · exact Or.inl (List.mem_cons_of_mem r h1)
        · exact Or.inr ⟨p, List.mem_cons_of_mem r hp, he⟩

theorem mem_delP (ps : List Player) (sid : Nat) (q : Player)
    (hq : q ∈ delP ps sid) : q ∈ ps := by
  induction ps with
  | nil => simp [delP] at hq
  | cons r rest ih =>
    by_cases h : r.id = sid
    · simp only [delP, if_pos h] at hq
      exact List.mem_cons_of_mem r hq
    · simp only [delP, if_neg h, List.mem_cons] at hq
      rcases hq with hq | hq
      · exact hq ▸ List.mem_cons_self r rest
      · exact List.mem_cons_of_mem r (ih hq)

theorem findP_setP_self (ps : List Player) (q : Player) :
    findP (setP ps q) q.id = some q := by
  induction ps with
  | nil => simp [setP, findP_cons]
  | cons r rest ih =>
    by_cases h : r.id = q.id
    · simp [setP, if_pos h, findP_cons]
    · simp [setP, if_neg h, findP_cons, h, ih]

theorem findP_setP_ne (ps : List Player) (q : Player) (sid : Nat)
    (h : sid ≠ q.id) : findP (setP ps q) sid = findP ps sid := by
  induction ps with
  | nil => simp [setP, findP_cons, findP, Ne.symm h]
  | cons r rest ih =>
    by_cases hr : r.id = q.id
    · have hrs : ¬ r.id = sid := fun hh => h (hh.symm.trans hr)
      simp [setP, if_pos hr, findP_cons, Ne.symm h, hrs]
    · by_cases hs : r.id = sid
      · simp [setP, if_neg hr, findP_cons, hs, h]
      · simp [setP, if_neg hr, findP_cons, hs, ih]

theorem length_setP_present (ps : List Player) (q p : Player)
    (h : findP ps q.id = some p) : (setP ps q).length = ps.length := by
  induction ps with
  | nil => simp [findP] at h
  | cons r rest ih =>
    by_cases hr : r.id = q.id
    · simp [setP, if_pos hr]
    · simp only [findP_cons, if_neg hr] at h
      simp [setP, if_neg hr, ih h]

/-- When the sweep's phase/light guard passes, its effect on the
registry is exactly a pointwise `strikePlayer`. -/
theorem eliminateHolders_players (g : Game) (hph : g.phase = .playing)
    (hl : g.light = .red) :
    (eliminateHolders g).players = g.players.map strikePlayer := by
  unfold eliminateHolders
  rw [if_neg (by simp [hph, hl])]
  split <;> simp [endGame, sweptGame]

theorem strikePlayer_id (p : Player) : (strikePlayer p).id = p.id := by
  unfold strikePlayer
  split <;> rfl

theorem tickPlayer_id (now : Nat) (p : Player) : (tickPlayer now p).id = p.id := by
  unfold tickPlayer
  split <;> first | rfl | (split <;> rfl)

theorem strikeHold_id (p : Player) : (strikeHold p).id = p.id := rfl

theorem holdOn_id (p : Player) : (holdOn p).id = p.id := rfl

theorem holdOff_id (p : Player) : (holdOff p).id = p.id := rfl

theorem forfeit_id (p : Player) : (forfeit p).id = p.id := rfl

/-! ### C1 -/

/-- C1: in a playing state with a red light and the grace period already
elapsed (`eliminationPending = false`), a begin-hold from a registered,
alive player marks that player not-alive synchronously within the same
handler: the state produced by that single `holdStart` already carries
`alive = false`. -/
theorem holdStart_strike_immediate (g : Game) (sid : Nat) (p : Player)
    (hf : findP g.players sid = some p) (ha : p.alive = true)
    (hph : g.phase = Phase.playing) (hl : g.light = Light.red)
    (he : g.eliminationPending = false) :
    findP (holdStart g sid).players sid =
      some { p with holding := true, alive := false, eliminated := true } := by
  simp only [holdStart, hf]
  rw [if_neg (by simp [ha, hph]), if_pos ⟨hl, he⟩]
  show findP (updP g.players sid strikeHold) sid = _
  rw [findP_updP _ _ _ strikeHold_id, hf]
  rfl

/-- The concrete state for the C1 witness: playing, red light, grace
period over, one registered alive player. -/
def gameC1 : Game :=
  { initGame with
    phase := Phase.playing
    light := Light.red
    players := [createPlayer 0 "a"] }

/-- C1 witness: a single alive player at id 0, red light past the grace
window; after the begin-hold it is not alive. -/
theorem holdStart_strike_immediate_witness :
    findP (holdStart gameC1 0).players 0 =
      some { createPlayer 0 "a" with holding := true, alive := false, eliminated := true } :=
  holdStart_strike_immediate gameC1 0 (createPlayer 0 "a") rfl rfl rfl rfl rfl

/-! ### C2 -/

/-- C2: a begin-hold during the grace window (red light with
`eliminationPending = true`) only records `holding` and leaves the
player's `alive` flag untouched; and whenever the grace sweep fires, it
maps each player through `strikePlayer`, which kills an alive player
exactly when that player is still holding at that instant. -/
theorem holdStart_grace_window_spares (g : Game) (sid : Nat) (p : Player)
    (hf : findP g.players sid = some p) (ha : p.alive = true)
    (hph : g.phase = Phase.playing) (hl : g.light = Light.red)
    (he : g.eliminationPending = true) :
    findP (holdStart g sid).players sid = some { p with holding := true } ∧
    (∀ g2 q, g2.phase = Phase.playing → g2.light = Light.red →
      findP g2.players sid = some q →
      findP (eliminateHolders g2).players sid = some (strikePlayer q) ∧
      (q.alive = true → ((strikePlayer q).alive = false ↔ q.holding = true))) := by
  constructor
  · simp only [holdStart, hf]
    rw [if_neg (by simp [ha, hph]), if_neg (by simp [he])]
    show findP (updP g.players sid holdOn) sid = _
    rw [findP_updP _ _ _ holdOn_id, hf]
    rfl
  · intro g2 q hph2 hl2 hq
    constructor
    · rw [eliminateHolders_players g2 hph2 hl2, findP_map _ _ _ strikePlayer_id, hq]
      rfl
    · intro hqa
      unfold strikePlayer
      by_cases hh : q.holding = true
      · simp [hqa, hh]
      · simp [hqa, hh]

/-- The concrete state for the C2 witness: playing, red light, inside
the grace window, one registered alive player. -/
def gameC2 : Game :=
  { initGame with
    phase := Phase.playing
    light := Light.red
    eliminationPending := true
    players := [createPlayer 0 "b"] }

/-- C2 witness: instantiating the grace-window theorem on `gameC2`. -/
theorem holdStart_grace_window_spares_witness :
    findP (holdStart gameC2 0).players 0 =
      some { createPlayer 0 "b" with holding := true } ∧
    (∀ g2 q, g2.phase = Phase.playing → g2.light = Light.red →
      findP g2.players 0 = some q →
      findP (eliminateHolders g2).players 0 = some (strikePlayer q) ∧
      (q.alive = true → ((strikePlayer q).alive = false ↔ q.holding = true))) :=
  holdStart_grace_window_spares gameC2 0 (createPlayer 0 "b") rfl rfl rfl rfl rfl

/-! ### C8 -/

/-- C8: `resetGame` returns to the lobby with a zeroed round counter and
restores every registered player to pristine per-match fields while the
registry's size, order, ids and names are unchanged. -/
theorem resetGame_restores (g : Game) :
    (resetGame g).phase = Phase.lobby ∧ (resetGame g).round = 0 ∧
    (resetGame g).players.length = g.players.length ∧
    List.Forall₂
      (fun p p' => p'.id = p.id ∧ p'.name = p.name ∧ p'.progress = 0 ∧
        p'.alive = true ∧ p'.holding = false ∧ p'.finishedAt = none)
      g.players (resetGame g).players := by
  refine ⟨rfl, rfl, by simp [resetGame], ?_⟩
  show List.Forall₂ _ g.players (g.players.map resetPlayer)
  induction g.players with
  | nil => exact List.Forall₂.nil
  | cons p rest ih => exact List.Forall₂.cons ⟨rfl, rfl, rfl, rfl, rfl, rfl⟩ ih

/-! ### C10 -/

/-- C10: while the match is playing, a kick or a disconnect never
changes the phase nor announces an end of match in the same handler
(whatever it leaves of the roster); a disconnect in an active match only
marks the player not-alive and not-holding. -/
theorem kick_disconnect_keep_phase (g : Game) (pid sid : Nat)
    (hph : g.phase = Phase.playing) :
    (kickPlayer g pid).phase = Phase.playing ∧
    (kickPlayer g pid).announced = g.announced ∧
    (disconnect g sid).phase = Phase.playing ∧
    (disconnect g sid).announced = g.announced ∧
    (∀ p, findP g.players sid = some p →
      findP (disconnect g sid).players sid =
        some { p with alive := false, holding := false }) := by
  cases heq : findP g.players sid with
  | none =>
    have hdis : disconnect g sid = g := by
      unfold disconnect
      rw [heq]
    refine ⟨hph, rfl, by rw [hdis]; exact hph, by rw [hdis], ?_⟩
    intro p hp
    exact absurd hp (by simp)
  | some p0 =>
    have hdis : disconnect g sid = { g with players := updP g.players sid forfeit } := by
      unfold disconnect
      rw [heq, if_neg (by simp [hph])]
    refine ⟨hph, rfl, by rw [hdis]; exact hph, by rw [hdis], ?_⟩
    intro p hp
    rw [hdis]
    show findP (updP g.players sid forfeit) sid = _
    rw [findP_updP _ _ _ forfeit_id, heq]
    injection hp with hp0
    rw [hp0]
    rfl

/-- The concrete state for the C10 witness: a two-player match in
progress. -/
def gameC10 : Game :=
  { initGame with
    phase := Phase.playing
    light := Light.green
    round := 1
    players := [createPlayer 0 "c", createPlayer 1 "d"] }

/-- C10 witness: kicking player 1 and disconnecting player 0 in
`gameC10` keep the phase at playing with nothing announced, and the
disconnected player is dead and not holding. -/
theorem kick_disconnect_keep_phase_witness :
    (kickPlayer gameC10 1).phase = Phase.playing ∧
    (kickPlayer gameC10 1).announced = gameC10.announced ∧
    (disconnect gameC10 0).phase = Phase.playing ∧
    (disconnect gameC10 0).announced = gameC10.announced ∧
    (∀ p, findP gameC10.players 0 = some p →
      findP (disconnect gameC10 0).players 0 =
        some { p with alive := false, holding := false }) :=
  kick_disconnect_keep_phase gameC10 1 0 rfl

/-! ### C4 -/

theorem strikePlayer_spec (p : Player) :
    (strikePlayer p).id = p.id ∧ (strikePlayer p).holding = p.holding ∧
    (strikePlayer p).progress = p.progress ∧
    (strikePlayer p).finishedAt = p.finishedAt ∧
    ((strikePlayer p).alive = true ↔ (p.alive = true ∧ p.holding = false)) := by
  unfold strikePlayer
  by_cases h : p.alive = true ∧ p.holding = true
  · rw [if_pos h]
    obtain ⟨h1, h2⟩ := h
    simp [h1, h2]
  · rw [if_neg h]
    refine ⟨rfl, rfl, rfl, rfl, ?_⟩
    constructor
    · intro ha
      refine ⟨ha, ?_⟩
      rcases not_and_or.mp h with hh | hh
      · exact absurd ha hh
      · simpa using hh
    · exact fun hc => hc.1

theorem eliminateHolders_none (g : Game) (hph : g.phase = Phase.playing)
    (hl : g.light = Light.red)
    (hr : (sweptGame g).players.filter (fun p => p.alive) = []) :
    eliminateHolders g = endGame (sweptGame g) none := by
  unfold eliminateHolders
  rw [if_neg (by simp [hph, hl]), hr]

theorem eliminateHolders_one (g : Game) (hph : g.phase = Phase.playing)
    (hl : g.light = Light.red) (w : Player)
    (hr : (sweptGame g).players.filter (fun p => p.alive) = [w]) :
    eliminateHolders g = endGame (sweptGame g) (some w) := by
  unfold eliminateHolders
  rw [if_neg (by simp [hph, hl]), hr]

theorem eliminateHolders_many (g : Game) (hph : g.phase = Phase.playing)
    (hl : g.light = Light.red) (w w2 : Player) (rest : List Player)
    (hr : (sweptGame g).players.filter (fun p => p.alive) = w :: w2 :: rest) :
    eliminateHolders g = { sweptGame g with lightTimer := some Light.green } := by
  unfold eliminateHolders
  rw [if_neg (by simp [hph, hl]), hr]

/-- C4: a grace sweep in a playing/red state marks not-alive exactly the
players that are alive and holding at that instant (everything else
about each player is unchanged); then it ends the match with no winner
when nobody is left alive, declares the unique survivor the winner when
exactly one is left, and otherwise keeps the match running and schedules
the next switch to green. -/
theorem sweep_exact_and_resolution (g : Game) (hph : g.phase = Phase.playing)
    (hl : g.light = Light.red) :
    (eliminateHolders g).players = g.players.map strikePlayer ∧
    List.Forall₂
      (fun p p' => p'.id = p.id ∧ p'.holding = p.holding ∧
        p'.progress = p.progress ∧ p'.finishedAt = p.finishedAt ∧
        (p'.alive = true ↔ (p.alive = true ∧ p.holding = false)))
      g.players (g.players.map strikePlayer) ∧
    ((g.players.map strikePlayer).filter (fun p => p.alive) = [] →
      (eliminateHolders g).phase = Phase.gameOver ∧
      (eliminateHolders g).announced = some none) ∧
    (∀ w, (g.players.map strikePlayer).filter (fun p => p.alive) = [w] →
      (eliminateHolders g).phase = Phase.gameOver ∧
      (eliminateHolders g).announced = some (some w.id)) ∧
    (2 ≤ ((g.players.map strikePlayer).filter (fun p => p.alive)).length →
      (eliminateHolders g).phase = Phase.playing ∧
      (eliminateHolders g).announced = g.announced ∧
      (eliminateHolders g).lightTimer = some Light.green) := by
  refine ⟨eliminateHolders_players g hph hl, ?_, ?_, ?_, ?_⟩
  · induction g.players with
    | nil => exact List.Forall₂.nil
    | cons p rest ih => exact List.Forall₂.cons (strikePlayer_spec p) ih
  · intro hz
    rw [eliminateHolders_none g hph hl hz]
    exact ⟨rfl, rfl⟩
  · intro w hw
    rw [eliminateHolders_one g hph hl w hw]
    exact ⟨rfl, rfl⟩
  · intro h2
    rcases hcase : (g.players.map strikePlayer).filter (fun p => p.alive) with
      _ | ⟨w, _ | ⟨w2, rest⟩⟩
    · rw [hcase] at h2
      simp at h2
    · rw [hcase] at h2
      simp at h2
    · rw [eliminateHolders_many g hph hl w w2 rest hcase]
      exact ⟨hph, rfl, rfl⟩

/-- The concrete state for the C4 witness: three players in a playing,
red-light state; player 0 is holding, players 1 and 2 are not. -/
def gameC4 : Game :=
  { initGame with
    phase := Phase.playing
    light := Light.red
    eliminationPending := true
    graceTimer := true
    players := [{ createPlayer 0 "p" with holding := true },
      createPlayer 1 "q", createPlayer 2 "r"] }

/-- C4 witness: instantiating the sweep theorem on `gameC4` (where two
players survive, so the cycle continues). -/
theorem sweep_exact_and_resolution_witness :
    (eliminateHolders gameC4).players = gameC4.players.map strikePlayer ∧
    List.Forall₂
      (fun p p' => p'.id = p.id ∧ p'.holding = p.holding ∧
        p'.progress = p.progress ∧ p'.finishedAt = p.finishedAt ∧
        (p'.alive = true ↔ (p.alive = true ∧ p.holding = false)))
      gameC4.players (gameC4.players.map strikePlayer) ∧
    ((gameC4.players.map strikePlayer).filter (fun p => p.alive) = [] →
      (eliminateHolders gameC4).phase = Phase.gameOver ∧
      (eliminateHolders gameC4).announced = some none) ∧
    (∀ w, (gameC4.players.map strikePlayer).filter (fun p => p.alive) = [w] →
      (eliminateHolders gameC4).phase = Phase.gameOver ∧
      (eliminateHolders gameC4).announced = some (some w.id)) ∧
    (2 ≤ ((gameC4.players.map strikePlayer).filter (fun p => p.alive)).length →
      (eliminateHolders gameC4).phase = Phase.playing ∧
      (eliminateHolders gameC4).announced = gameC4.announced ∧
      (eliminateHolders gameC4).lightTimer = some Light.green) :=
  sweep_exact_and_resolution gameC4 rfl rfl

/-! ### C7 -/

/-- The concrete state for C7: a lobby with player id 0 already
registered under the name "A". -/
def gameC7 : Game :=
  { initGame with players := [createPlayer 0 "A"] }

/-- C7 counterexample: in `gameC7` the id 0 is already present, yet a
second join under id 0 with name "B" is not rejected: it replaces the
stored player, whose name changes from "A" to "B" — so the operation
neither fails nor leaves the registry unchanged. -/
theorem joinGame_duplicate_cx :
    findP gameC7.players 0 = some (createPlayer 0 "A") ∧
    findP (joinGame gameC7 0 "B").players 0 = some (createPlayer 0 "B") ∧
    (createPlayer 0 "A").name ≠ (createPlayer 0 "B").name := by
  refine ⟨rfl, ?_, by decide⟩
  rfl

/-- C7 amended: a lobby join whose id is already present does not fail;
it overwrites the existing entry in place with a fresh pristine player
carrying the new trimmed name.  The registry size is unchanged (no new
entry is created) and every other id is untouched. -/
theorem joinGame_duplicate_overwrites (g : Game) (sid : Nat) (name : String) (p : Player)
    (hph : g.phase = Phase.lobby) (hname : ¬ (trimStr name).data.length = 0)
    (hf : findP g.players sid = some p) :
    (joinGame g sid name).players.length = g.players.length ∧
    findP (joinGame g sid name).players sid = some (createPlayer sid (trimStr name)) ∧
    (∀ sid2, sid2 ≠ sid → findP (joinGame g sid name).players sid2 = findP g.players sid2) := by
  have hj : joinGame g sid name =
      { g with players := setP g.players (createPlayer sid (trimStr name)) } := by
    unfold joinGame
    rw [if_neg (by simp [hph]), if_neg hname]
  refine ⟨?_, ?_, ?_⟩
  · rw [hj]
    exact length_setP_present g.players (createPlayer sid (trimStr name)) p hf
  · rw [hj]
    exact findP_setP_self g.players (createPlayer sid (trimStr name))
  · intro sid2 hs
    rw [hj]
    exact findP_setP_ne g.players (createPlayer sid (trimStr name)) sid2 hs

/-- C7 witness: the amended behavior evaluated on `gameC7`. -/
theorem joinGame_duplicate_overwrites_witness :
    (joinGame gameC7 0 "B").players.length = gameC7.players.length ∧
    findP (joinGame gameC7 0 "B").players 0 = some (createPlayer 0 (trimStr "B")) ∧
    (∀ sid2, sid2 ≠ 0 → findP (joinGame gameC7 0 "B").players sid2 = findP gameC7.players sid2) :=
  joinGame_duplicate_overwrites gameC7 0 "B" (createPlayer 0 "A") rfl (by decide) rfl

/-! ### C6 -/

/-- The player for C6: alive, holding, some accumulated progress. -/
def playerC6 : Player :=
  { createPlayer 0 "e" with progress := 10, holding := true }

/-- The concrete state for C6: a playing, red-light state inside the
grace window, with one alive player who is holding. -/
def gameC6 : Game :=
  { initGame with
    phase := Phase.playing
    light := Light.red
    eliminationPending := true
    graceTimer := true
    players := [playerC6] }

/-- C6 counterexample: the sweep on `gameC6` marks player 0 not-alive
but leaves `holding = true` (it is not forced false at that moment), and
a subsequent end-hold from the now-dead player is not ignored: it
changes the state (clearing `holding`). -/
theorem dead_player_events_cx :
    findP (eliminateHolders gameC6).players 0 =
      some { playerC6 with alive := false, eliminated := true } ∧
    ¬ (∀ q, findP (eliminateHolders gameC6).players 0 = some q → q.holding = false) ∧
    holdEnd (eliminateHolders gameC6) 0 ≠ eliminateHolders gameC6 := by
  refine ⟨rfl, ?_, by decide⟩
  intro h
  have hq := h _ rfl
  exact absurd hq (by decide)

/-- C6 amended: only a `disconnect` forces a dead player's `holding` to
false; the sweep leaves `holding` as it was.  A begin-hold from a dead
player is silently ignored with no state change, but an end-hold from a
dead player is still processed: it clears `holding` (and changes nothing
else about the player). -/
theorem dead_player_events (g : Game) (sid : Nat) (p : Player)
    (hf : findP g.players sid = some p) :
    (g.phase ≠ Phase.lobby →
      findP (disconnect g sid).players sid = some (forfeit p) ∧
      (forfeit p).holding = false) ∧
    (strikePlayer p).holding = p.holding ∧
    (p.alive = false → holdStart g sid = g) ∧
    (findP (holdEnd g sid).players sid = some (holdOff p) ∧
      (holdOff p).holding = false ∧ (holdOff p).alive = p.alive ∧
      (holdOff p).id = p.id ∧ (holdOff p).progress = p.progress ∧
      (holdOff p).finishedAt = p.finishedAt) := by
  refine ⟨?_, ?_, ?_, ?_⟩
  · intro hph
    have hdis : disconnect g sid = { g with players := updP g.players sid forfeit } := by
      unfold disconnect
      rw [hf, if_neg hph]
    refine ⟨?_, rfl⟩
    rw [hdis]
    show findP (updP g.players sid forfeit) sid = _
    rw [findP_updP _ _ _ forfeit_id, hf]
    rfl
  · unfold strikePlayer
    split <;> rfl
  · intro ha
    simp only [holdStart, hf]
    rw [if_pos (Or.inl ha)]
  · have hhe : holdEnd g sid = { g with players := updP g.players sid holdOff } := by
      unfold holdEnd
      rw [hf]
    refine ⟨?_, rfl, rfl, rfl, rfl, rfl⟩
    rw [hhe]
    show findP (updP g.players sid holdOff) sid = _
    rw [findP_updP _ _ _ holdOff_id, hf]
    rfl

/-- The player for the C6 witness: already dead but still recorded as
holding. -/
def playerC6b : Player :=
  { createPlayer 0 "f" with alive := false, holding := true }

/-- The concrete state for the C6 witness: a match in progress where
player 0 is already dead but still recorded as holding. -/
def gameC6b : Game :=
  { initGame with
    phase := Phase.playing
    light := Light.green
    players := [playerC6b] }

/-- C6 witness: the amended dead-player behavior evaluated on
`gameC6b`. -/
theorem dead_player_events_witness :
    (gameC6b.phase ≠ Phase.lobby →
      findP (disconnect gameC6b 0).players 0 = some (forfeit playerC6b) ∧
      (forfeit playerC6b).holding = false) ∧
    (strikePlayer playerC6b).holding = playerC6b.holding ∧
    (playerC6b.alive = false → holdStart gameC6b 0 = gameC6b) ∧
    (findP (holdEnd gameC6b 0).players 0 = some (holdOff playerC6b) ∧
      (holdOff playerC6b).holding = false ∧
      (holdOff playerC6b).alive = playerC6b.alive ∧
      (holdOff playerC6b).id = playerC6b.id ∧
      (holdOff playerC6b).progress = playerC6b.progress ∧
      (holdOff playerC6b).finishedAt = playerC6b.finishedAt) :=
  dead_player_events gameC6b 0 playerC6b rfl

/-! ### C3 -/

theorem findP_updP_ne (ps : List Player) (sid sid2 : Nat) (f : Player → Player)
    (hid : ∀ p, (f p).id = p.id) (h : sid ≠ sid2) :
    findP (updP ps sid2 f) sid = findP ps sid := by
  induction ps with
  | nil => rfl
  | cons q rest ih =>
    by_cases hq : q.id = sid2
    · have hqs : ¬ q.id = sid := fun hh => h (hh.symm.trans hq)
      simp [updP, if_pos hq, findP_cons, hid q, hqs]
    · by_cases hqs : q.id = sid
      · simp [updP, if_neg hq, findP_cons, hqs, h]
      · simp [updP, if_neg hq, findP_cons, hqs, ih]

theorem checkForWinner_players (g : Game) : (checkForWinner g).players = g.players := by
  unfold checkForWinner
  split <;> rfl

theorem tickPlayer_progress (now : Nat) (p : Player)
    (hb : p.progress ≤ progressToWin) :
    p.progress ≤ (tickPlayer now p).progress ∧
    (tickPlayer now p).progress ≤ progressToWin := by
  have hrate : (0 : ℚ) ≤ progressRate := by norm_num [progressRate]
  unfold tickPlayer
  by_cases hc : p.alive = true ∧ p.holding = true ∧ p.finishedAt = none
  · rw [if_pos hc]
    by_cases h2 : progressToWin ≤ min progressToWin (p.progress + progressRate)
    · rw [if_pos h2]
      exact ⟨le_min hb (by linarith), min_le_left _ _⟩
    · rw [if_neg h2]
      exact ⟨le_min hb (by linarith), min_le_left _ _⟩
  · rw [if_neg hc]
    exact ⟨le_refl _, hb⟩

theorem tickPlayer_progress_eq (now : Nat) (r : Player) :
    (tickPlayer now r).progress =
      (if r.alive = true ∧ r.holding = true ∧ r.finishedAt = none
        then min progressToWin (r.progress + progressRate) else r.progress) := by
  unfold tickPlayer
  by_cases hc : r.alive = true ∧ r.holding = true ∧ r.finishedAt = none
  · rw [if_pos hc, if_pos hc]
    by_cases h2 : progressToWin ≤ min progressToWin (r.progress + progressRate)
    · rw [if_pos h2]
    · rw [if_neg h2]
  · rw [if_neg hc, if_neg hc]

/-- The events C3 ranges over: begin-hold, end-hold, progress ticks. -/
def isHoldTick : Event → Bool
  | .holdStart _ => true
  | .holdEnd _ => true
  | .tick _ => true
  | _ => false

theorem holdTick_progress_step (g : Game) (e : Event) (he : isHoldTick e = true)
    (sid : Nat) (p : Player) (hp : findP g.players sid = some p)
    (hb : p.progress ≤ progressToWin) :
    ∃ q, findP (step g e).players sid = some q ∧
      p.progress ≤ q.progress ∧ q.progress ≤ progressToWin := by
  cases e with
  | holdStart sid2 =>
    show ∃ q, findP (holdStart g sid2).players sid = some q ∧ _
    cases hfind : findP g.players sid2 with
    | none =>
      have hsame : holdStart g sid2 = g := by
        simp only [holdStart, hfind]
      rw [hsame]
      exact ⟨p, hp, le_refl _, hb⟩
    | some p2 =>
      by_cases hg1 : p2.alive = false ∨ g.phase ≠ Phase.playing
      · have hsame : holdStart g sid2 = g := by
          simp only [holdStart, hfind]
          rw [if_pos hg1]
        rw [hsame]
        exact ⟨p, hp, le_refl _, hb⟩
      · by_cases hg2 : g.light = Light.red ∧ g.eliminationPending = false
        · have hsame : holdStart g sid2 = { g with players := updP g.players sid2 strikeHold } := by
            simp only [holdStart, hfind]
            rw [if_neg hg1, if_pos hg2]
          rw [hsame]
          by_cases hs : sid = sid2
          · subst hs
            refine ⟨strikeHold p, ?_, le_refl _, hb⟩
            show findP (updP g.players sid strikeHold) sid = _
            rw [findP_updP _ _ _ strikeHold_id, hp]
            rfl
          · refine ⟨p, ?_, le_refl _, hb⟩
            show findP (updP g.players sid2 strikeHold) sid = _
            rw [findP_updP_ne _ _ _ _ strikeHold_id hs]
            exact hp
        · have hsame : holdStart g sid2 = { g with players := updP g.players sid2 holdOn } := by
            simp only [holdStart, hfind]
            rw [if_neg hg1, if_neg hg2]
          rw [hsame]
          by_cases hs : sid = sid2
          · subst hs
            refine ⟨holdOn p, ?_, le_refl _, hb⟩
            show findP (updP g.players sid holdOn) sid = _
            rw [findP_updP _ _ _ holdOn_id, hp]
            rfl
          · refine ⟨p, ?_, le_refl _, hb⟩
            show findP (updP g.players sid2 holdOn) sid = _
            rw [findP_updP_ne _ _ _ _ holdOn_id hs]
            exact hp
  | holdEnd sid2 =>
    show ∃ q, findP (holdEnd g sid2).players sid = some q ∧ _
    cases hfind : findP g.players sid2 with
    | none =>
      have hsame : holdEnd g sid2 = g := by
        simp only [holdEnd, hfind]
      rw [hsame]
      exact ⟨p, hp, le_refl _, hb⟩
    | some p2 =>
      have hsame : holdEnd g sid2 = { g with players := updP g.players sid2 holdOff } := by
        simp only [holdEnd, hfind]
      rw [hsame]
      by_cases hs : sid = sid2
      · subst hs
        refine ⟨holdOff p, ?_, le_refl _, hb⟩
        show findP (updP g.players sid holdOff) sid = _
        rw [findP_updP _ _ _ holdOff_id, hp]
        rfl
      · refine ⟨p, ?_, le_refl _, hb⟩
        show findP (updP g.players sid2 holdOff) sid = _
        rw [findP_updP_ne _ _ _ _ holdOff_id hs]
        exact hp
  | tick now =>
    show ∃ q, findP (progressTick g now).players sid = some q ∧ _
    unfold progressTick
    by_cases hg : g.phase ≠ Phase.playing ∨ g.light ≠ Light.green
    · rw [if_pos hg]
      exact ⟨p, hp, le_refl _, hb⟩
    · rw [if_neg hg]
      by_cases hf2 : ∃ p2 ∈ g.players, playerFinishesNow p2
      · rw [if_pos hf2]
        refine ⟨tickPlayer now p, ?_, tickPlayer_progress now p hb⟩
        rw [checkForWinner_players]
        show findP (g.players.map (tickPlayer now)) sid = _
        rw [findP_map _ _ _ (tickPlayer_id now), hp]
        rfl
      · rw [if_neg hf2]
        refine ⟨tickPlayer now p, ?_, tickPlayer_progress now p hb⟩
        show findP (g.players.map (tickPlayer now)) sid = _
        rw [findP_map _ _ _ (tickPlayer_id now), hp]
        rfl
  | join sid2 name => exact absurd he (by simp [isHoldTick])
  | toGreen => exact absurd he (by simp [isHoldTick])
  | toRed => exact absurd he (by simp [isHoldTick])
  | sweep => exact absurd he (by simp [isHoldTick])
  | start => exact absurd he (by simp [isHoldTick])
  | countdownDone => exact absurd he (by simp [isHoldTick])
  | reset => exact absurd he (by simp [isHoldTick])
  | kick pid => exact absurd he (by simp [isHoldTick])
  | leave sid2 => exact absurd he (by simp [isHoldTick])

theorem holdTick_progress_fold (evs : List Event) (g : Game)
    (hev : ∀ e ∈ evs, isHoldTick e = true) (sid : Nat) (p : Player)
    (hp : findP g.players sid = some p) (hb : p.progress ≤ progressToWin) :
    ∃ q, findP (evs.foldl step g).players sid = some q ∧
      p.progress ≤ q.progress ∧ q.progress ≤ progressToWin := by
  induction evs generalizing g p with
  | nil => exact ⟨p, hp, le_refl _, hb⟩
  | cons e rest ih =>
    obtain ⟨q, hq, h1, h2⟩ :=
      holdTick_progress_step g e (hev e (List.mem_cons_self e rest)) sid p hp hb
    obtain ⟨q2, hq2, h3, h4⟩ :=
      ih (step g e) (fun e2 hm => hev e2 (List.mem_cons_of_mem e hm)) q hq h2
    exact ⟨q2, hq2, le_trans h1 h3, h4⟩

/-- C3: under any sequence of begin-hold, end-hold and progress-tick
events a player's progress never decreases and never exceeds
`progressToWin`; a single tick adds exactly `progressRate` clamped at
`progressToWin` to a player that is alive, holding and unfinished and
leaves every other player's progress unchanged; and the tick is a
complete no-op unless the phase is playing and the light green. -/
theorem progress_monotone_bounded (g : Game) (evs : List Event)
    (hev : ∀ e ∈ evs, isHoldTick e = true) (sid : Nat) (p : Player)
    (hp : findP g.players sid = some p) (hb : p.progress ≤ progressToWin) :
    (∃ q, findP (evs.foldl step g).players sid = some q ∧
      p.progress ≤ q.progress ∧ q.progress ≤ progressToWin) ∧
    (∀ g2 now r, findP g2.players sid = some r →
      g2.phase = Phase.playing → g2.light = Light.green →
      ∃ s, findP (progressTick g2 now).players sid = some s ∧
        s.progress = (if r.alive = true ∧ r.holding = true ∧ r.finishedAt = none
          then min progressToWin (r.progress + progressRate) else r.progress)) ∧
    (∀ g2 now, g2.phase ≠ Phase.playing ∨ g2.light ≠ Light.green →
      progressTick g2 now = g2) := by
  refine ⟨holdTick_progress_fold evs g hev sid p hp hb, ?_, ?_⟩
  · intro g2 now r hr hph hl
    refine ⟨tickPlayer now r, ?_, tickPlayer_progress_eq now r⟩
    unfold progressTick
    rw [if_neg (by simp [hph, hl])]
    by_cases hf2 : ∃ p2 ∈ g2.players, playerFinishesNow p2
    · rw [if_pos hf2, checkForWinner_players]
      show findP (g2.players.map (tickPlayer now)) sid = _
      rw [findP_map _ _ _ (tickPlayer_id now), hr]
      rfl
    · rw [if_neg hf2]
      show findP (g2.players.map (tickPlayer now)) sid = _
      rw [findP_map _ _ _ (tickPlayer_id now), hr]
      rfl
  · intro g2 now hbad
    unfold progressTick
    rw [if_pos hbad]

/-- The concrete state for the C3 witness: a green-light match with one
holding player. -/
def gameC3 : Game :=
  { initGame with
    phase := Phase.playing
    light := Light.green
    players := [{ createPlayer 0 "g" with holding := true }] }

/-- C3 witness: two ticks with a release in between, on `gameC3`. -/
theorem progress_monotone_bounded_witness :
    (∃ q, findP (List.foldl step gameC3
        [Event.tick 5, Event.holdEnd 0, Event.tick 6]).players 0 = some q ∧
      ({ createPlayer 0 "g" with holding := true } : Player).progress ≤ q.progress ∧
      q.progress ≤ progressToWin) ∧
    (∀ g2 now r, findP g2.players 0 = some r →
      g2.phase = Phase.playing → g2.light = Light.green →
      ∃ s, findP (progressTick g2 now).players 0 = some s ∧
        s.progress = (if r.alive = true ∧ r.holding = true ∧ r.finishedAt = none
          then min progressToWin (r.progress + progressRate) else r.progress)) ∧
    (∀ g2 now, g2.phase ≠ Phase.playing ∨ g2.light ≠ Light.green →
      progressTick g2 now = g2) :=
  progress_monotone_bounded gameC3 [Event.tick 5, Event.holdEnd 0, Event.tick 6]
    (by decide) 0 { createPlayer 0 "g" with holding := true } rfl (by norm_num [progressToWin, createPlayer])

/-! ### C5 -/

/-- The head of the stable insertion sort by `finKey` is the first
element attaining the minimal key: everything before it in the original
list is strictly larger, everything after it at least as large. -/
theorem head_insertionSort_min (l : List Player) (hne : l ≠ []) :
    ∃ w l1 l2, (List.insertionSort finLE l).head? = some w ∧
      l = l1 ++ w :: l2 ∧ (∀ q ∈ l1, finKey w < finKey q) ∧
      (∀ q ∈ l2, finKey w ≤ finKey q) := by
  induction l with
  | nil => exact absurd rfl hne
  | cons a t ih =>
    by_cases ht : t = []
    · subst ht
      exact ⟨a, [], [], rfl, rfl, by simp, by simp⟩
    · obtain ⟨w, l1, l2, hw, hsplit, h1, h2⟩ := ih ht
      obtain ⟨s, hs⟩ : ∃ s, List.insertionSort finLE t = w :: s := by
        cases hsort : List.insertionSort finLE t with
        | nil =>
          rw [hsort] at hw
          exact absurd hw (by simp)
        | cons x xs =>
          rw [hsort] at hw
          simp only [List.head?] at hw
          exact ⟨xs, by rw [(Option.some_inj.mp hw)]⟩
      by_cases hle : finLE a w
      · refine ⟨a, [], t, ?_, rfl, by simp, ?_⟩
        · have hins : List.insertionSort finLE (a :: t) = a :: w :: s := by
            show List.orderedInsert finLE a (List.insertionSort finLE t) = _
            rw [hs]
            simp only [List.orderedInsert]
            rw [if_pos hle]
          rw [hins]
          rfl
        · intro q hq
          rw [hsplit] at hq
          rcases List.mem_append.mp hq with hq1 | hq2
          · exact le_trans hle (le_of_lt (h1 q hq1))
          · rcases List.mem_cons.mp hq2 with rfl | hq3
            · exact hle
            · exact le_trans hle (h2 q hq3)
      · have hwa : finKey w < finKey a := lt_of_not_le hle
        refine ⟨w, a :: l1, l2, ?_, by rw [hsplit]; rfl, ?_, h2⟩
        · have hins : List.insertionSort finLE (a :: t) =
              w :: List.orderedInsert finLE a s := by
            show List.orderedInsert finLE a (List.insertionSort finLE t) = _
            rw [hs]
            simp only [List.orderedInsert]
            rw [if_neg hle]
          rw [hins]
          rfl
        · intro q hq
          rcases List.mem_cons.mp hq with rfl | hq2
          · exact hwa
          · exact h1 q hq2

/-- C5: whenever at least one player has finished, `checkForWinner` ends
the match and announces as winner the finisher with the minimal
`finishedAt`; on equal timestamps the earliest finisher in registry
iteration order wins (everything before the winner in the finisher list
has a strictly later timestamp). -/
theorem winner_earliest_finisher (g : Game)
    (hne : g.players.filter (fun p => p.finishedAt.isSome) ≠ []) :
    ∃ w l1 l2,
      (checkForWinner g).phase = Phase.gameOver ∧
      (checkForWinner g).announced = some (some w.id) ∧
      g.players.filter (fun p => p.finishedAt.isSome) = l1 ++ w :: l2 ∧
      (∀ q ∈ l1, finKey w < finKey q) ∧
      (∀ q ∈ l2, finKey w ≤ finKey q) := by
  obtain ⟨w, l1, l2, hw, hsplit, h1, h2⟩ := head_insertionSort_min _ hne
  refine ⟨w, l1, l2, ?_, ?_, hsplit, h1, h2⟩
  · unfold checkForWinner
    rw [hw]
    rfl
  · unfold checkForWinner
    rw [hw]
    rfl

/-- The concrete state for the C5 witness: players 0 and 1 both finished
with the same timestamp, player 2 unfinished. -/
def gameC5 : Game :=
  { initGame with
    phase := Phase.playing
    light := Light.green
    players := [{ createPlayer 0 "w1" with progress := 100, finishedAt := some 42 },
      { createPlayer 1 "w2" with progress := 100, finishedAt := some 42 },
      createPlayer 2 "n"] }

/-- C5 witness: winner resolution on `gameC5`. -/
theorem winner_earliest_finisher_witness :
    ∃ w l1 l2,
      (checkForWinner gameC5).phase = Phase.gameOver ∧
      (checkForWinner gameC5).announced = some (some w.id) ∧
      gameC5.players.filter (fun p => p.finishedAt.isSome) = l1 ++ w :: l2 ∧
      (∀ q ∈ l1, finKey w < finKey q) ∧
      (∀ q ∈ l2, finKey w ≤ finKey q) :=
  winner_earliest_finisher gameC5 (by decide)

/-! ### C9 -/

theorem switchToGreen_phase (g : Game) : (switchToGreen g).phase = g.phase := by
  unfold switchToGreen
  split <;> rfl

theorem switchToGreen_players (g : Game) : (switchToGreen g).players = g.players := by
  unfold switchToGreen
  split <;> rfl

theorem switchToRed_phase (g : Game) : (switchToRed g).phase = g.phase := by
  unfold switchToRed
  split <;> rfl

theorem switchToRed_players (g : Game) : (switchToRed g).players = g.players := by
  unfold switchToRed
  split <;> rfl

theorem holdStart_shape (g : Game) (sid : Nat) :
    holdStart g sid = g ∨
    holdStart g sid = { g with players := updP g.players sid strikeHold } ∨
    holdStart g sid = { g with players := updP g.players sid holdOn } := by
  cases hE : findP g.players sid with
  | none =>
    left
    simp only [holdStart, hE]
  | some p =>
    by_cases h1 : p.alive = false ∨ g.phase ≠ Phase.playing
    · left
      simp only [holdStart, hE]
      rw [if_pos h1]
    · by_cases h2 : g.light = Light.red ∧ g.eliminationPending = false
      · right; left
        simp only [holdStart, hE]
        rw [if_neg h1, if_pos h2]
      · right; right
        simp only [holdStart, hE]
        rw [if_neg h1, if_neg h2]

theorem holdEnd_shape (g : Game) (sid : Nat) :
    holdEnd g sid = g ∨
    holdEnd g sid = { g with players := updP g.players sid holdOff } := by
  cases hE : findP g.players sid with
  | none =>
    left
    simp only [holdEnd, hE]
  | some p =>
    right
    simp only [holdEnd, hE]

theorem tickPlayer_finishedAt_of_not (now : Nat) (r : Player)
    (h : ¬ playerFinishesNow r) : (tickPlayer now r).finishedAt = r.finishedAt := by
  unfold tickPlayer
  by_cases hc : r.alive = true ∧ r.holding = true ∧ r.finishedAt = none
  · rw [if_pos hc]
    by_cases h2 : progressToWin ≤ min progressToWin (r.progress + progressRate)
    · exact absurd (show playerFinishesNow r from ⟨hc.1, hc.2.1, hc.2.2, h2⟩) h
    · rw [if_neg h2]
  · rw [if_neg hc]

/-- In every reachable state whose phase is `playing` or `countdown`, no
player has a `finishedAt` stamp: the tick that sets one synchronously
ends the match in the same handler, and every entry into
countdown/playing resets the stamps. -/
theorem reachable_playing_noFin (g : Game) (hr : Reachable g) :
    (g.phase = Phase.playing ∨ g.phase = Phase.countdown) →
    ∀ p ∈ g.players, p.finishedAt = none := by
  induction hr with
  | init =>
    intro _ p hp
    simp [initGame] at hp
  | step g0 e hr0 ih =>
    cases e with
    | join sid name =>
      intro hph p hp
      by_cases h1 : g0.phase ≠ Phase.lobby
      · have he : joinGame g0 sid name = g0 := by
          unfold joinGame
          rw [if_pos h1]
        rw [show step g0 (Event.join sid name) = joinGame g0 sid name from rfl, he] at hph hp
        exact ih hph p hp
      · have hphase : (joinGame g0 sid name).phase = g0.phase := by
          unfold joinGame
          split
          · rfl
          · split <;> rfl
        push_neg at h1
        rw [show step g0 (Event.join sid name) = joinGame g0 sid name from rfl, hphase, h1] at hph
        rcases hph with h | h <;> exact absurd h (by decide)
    | holdStart sid =>
      intro hph p hp
      rcases holdStart_shape g0 sid with he | he | he <;>
        rw [show step g0 (Event.holdStart sid) = holdStart g0 sid from rfl, he] at hph hp
      · exact ih hph p hp
      · rcases mem_updP _ _ _ p hp with hmem | ⟨r, hrm, rfl⟩
        · exact ih hph p hmem
        · exact ih hph r hrm
      · rcases mem_updP _ _ _ p hp with hmem | ⟨r, hrm, rfl⟩
        · exact ih hph p hmem
        · exact ih hph r hrm
    | holdEnd sid =>
      intro hph p hp
      rcases holdEnd_shape g0 sid with he | he <;>
        rw [show step g0 (Event.holdEnd sid) = holdEnd g0 sid from rfl, he] at hph hp
      · exact ih hph p hp
      · rcases mem_updP _ _ _ p hp with hmem | ⟨r, hrm, rfl⟩
        · exact ih hph p hmem
        · exact ih hph r hrm
    | tick now =>
      intro hph p hp
      rw [show step g0 (Event.tick now) = progressTick g0 now from rfl] at hph hp
      by_cases hg : g0.phase ≠ Phase.playing ∨ g0.light ≠ Light.green
      · have he : progressTick g0 now = g0 := by
          unfold progressTick
          rw [if_pos hg]
        rw [he] at hph hp
        exact ih hph p hp
      · push_neg at hg
        obtain ⟨hg1, hg2⟩ := hg
        by_cases hfin : ∃ p2 ∈ g0.players, playerFinishesNow p2
        · have he : progressTick g0 now =
              checkForWinner { g0 with players := g0.players.map (tickPlayer now) } := by
            unfold progressTick
            rw [if_neg (by simp [hg1, hg2]), if_pos hfin]
          rw [he] at hph hp
          cases hw : (List.insertionSort finLE
              (({ g0 with players := g0.players.map (tickPlayer now) } : Game).players.filter
                (fun p => p.finishedAt.isSome))).head? with
          | some w =>
            have hcfw : checkForWinner { g0 with players := g0.players.map (tickPlayer now) } =
                endGame { g0 with players := g0.players.map (tickPlayer now) } (some w) := by
              unfold checkForWinner
              rw [hw]
            rw [hcfw] at hph
            rcases hph with h | h <;> simp [endGame] at h
          | none =>
            have hcfw : checkForWinner { g0 with players := g0.players.map (tickPlayer now) } =
                { g0 with players := g0.players.map (tickPlayer now) } := by
              unfold checkForWinner
              rw [hw]
            rw [hcfw] at hph hp
            have hsortnil := List.head?_eq_none_iff.mp hw
            have hperm := List.perm_insertionSort finLE
              (({ g0 with players := g0.players.map (tickPlayer now) } : Game).players.filter
                (fun p => p.finishedAt.isSome))
            rw [hsortnil] at hperm
            have hfilnil := (List.Perm.symm hperm).eq_nil
            have hall := List.filter_eq_nil_iff.mp hfilnil
            exact Option.not_isSome_iff_eq_none.mp (hall p hp)
        · have he : progressTick g0 now =
              { g0 with players := g0.players.map (tickPlayer now) } := by
            unfold progressTick
            rw [if_neg (by simp [hg1, hg2]), if_neg hfin]
          rw [he] at hph hp
          rcases List.mem_map.mp hp with ⟨r, hrm, rfl⟩
          have hnof : ¬ playerFinishesNow r := fun hc => hfin ⟨r, hrm, hc⟩
          rw [tickPlayer_finishedAt_of_not now r hnof]
          exact ih (Or.inl hg1) r hrm
    | toGreen =>
      intro hph p hp
      rw [show step g0 Event.toGreen = switchToGreen g0 from rfl] at hph hp
      rw [switchToGreen_players] at hp
      rw [switchToGreen_phase] at hph
      exact ih hph p hp
    | toRed =>
      intro hph p hp
      rw [show step g0 Event.toRed = switchToRed g0 from rfl] at hph hp
      rw [switchToRed_players] at hp
      rw [switchToRed_phase] at hph
      exact ih hph p hp
    | sweep =>
      intro hph p hp
      rw [show step g0 Event.sweep = eliminateHolders g0 from rfl] at hph hp
      by_cases hg : g0.phase ≠ Phase.playing ∨ g0.light ≠ Light.red
      · have he : eliminateHolders g0 = g0 := by
          unfold eliminateHolders
          rw [if_pos hg]
        rw [he] at hph hp
        exact ih hph p hp
      · push_neg at hg
        rcases hcase : (sweptGame g0).players.filter (fun p => p.alive) with
          _ | ⟨w, _ | ⟨w2, rest⟩⟩
        · rw [eliminateHolders_none g0 hg.1 hg.2 hcase] at hph
          rcases hph with h | h <;> simp [endGame] at h
        · rw [eliminateHolders_one g0 hg.1 hg.2 w hcase] at hph
          rcases hph with h | h <;> simp [endGame] at h
        · rw [eliminateHolders_many g0 hg.1 hg.2 w w2 rest hcase] at hph hp
          rcases List.mem_map.mp hp with ⟨r, hrm, rfl⟩
          rw [(strikePlayer_spec r).2.2.2.1]
          exact ih (Or.inl hg.1) r hrm
    | start =>
      intro hph p hp
      rw [show step g0 Event.start = startGameCmd g0 from rfl] at hph hp
      by_cases h1 : g0.phase = Phase.lobby ∨ g0.phase = Phase.gameOver
      · by_cases h2 : (g0.players.map resetPlayer).length < 1
        · have he : startGameCmd g0 = { g0 with players := g0.players.map resetPlayer } := by
            unfold startGameCmd
            rw [if_pos h1, if_pos h2]
          rw [he] at hph hp
          rcases List.mem_map.mp hp with ⟨r, hrm, rfl⟩
          rfl
        · have he : startGameCmd g0 =
              { g0 with
                players := g0.players.map resetPlayer
                phase := Phase.countdown
                round := g0.round + 1
                light := Light.red } := by
            unfold startGameCmd
            rw [if_pos h1, if_neg h2]
          rw [he] at hp
          rcases List.mem_map.mp hp with ⟨r, hrm, rfl⟩
          rfl
      · have he : startGameCmd g0 = g0 := by
          unfold startGameCmd
          rw [if_neg h1]
        rw [he] at hph hp
        exact ih hph p hp
    | countdownDone =>
      intro hph p hp
      rw [show step g0 Event.countdownDone = countdownFinish g0 from rfl] at hph hp
      by_cases h1 : g0.phase = Phase.countdown
      · have he : countdownFinish g0 = switchToGreen { g0 with phase := Phase.playing } := by
          unfold countdownFinish
          rw [if_pos h1]
        rw [he] at hp
        rw [switchToGreen_players] at hp
        exact ih (Or.inr h1) p hp
      · have he : countdownFinish g0 = g0 := by
          unfold countdownFinish
          rw [if_neg h1]
        rw [he] at hph hp
        exact ih hph p hp
    | reset =>
      intro hph p hp
      rw [show step g0 Event.reset = resetGame g0 from rfl] at hp
      rcases List.mem_map.mp hp with ⟨r, hrm, rfl⟩
      rfl
    | kick pid =>
      intro hph p hp
      rw [show step g0 (Event.kick pid) = kickPlayer g0 pid from rfl] at hph hp
      exact ih hph p (mem_delP _ _ _ hp)
    | leave sid =>
      intro hph p hp
      rw [show step g0 (Event.leave sid) = disconnect g0 sid from rfl] at hph hp
      cases hE : findP g0.players sid with
      | none =>
        have he : disconnect g0 sid = g0 := by
          unfold disconnect
          rw [hE]
        rw [he] at hph hp
        exact ih hph p hp
      | some r =>
        by_cases h1 : g0.phase = Phase.lobby
        · have he : disconnect g0 sid = { g0 with players := delP g0.players sid } := by
            unfold disconnect
            rw [hE, if_pos h1]
          rw [he] at hph hp
          rcases hph with h | h <;> exact absurd (h1.symm.trans h) (by decide)
        · have he : disconnect g0 sid = { g0 with players := updP g0.players sid forfeit } := by
            unfold disconnect
            rw [hE, if_neg h1]
          rw [he] at hph hp
          rcases mem_updP _ _ _ p hp with hmem | ⟨r2, hr2, rfl⟩
          · exact ih hph p hmem
          · exact ih hph r2 hr2

/-- C9: in every reachable state, a player with a non-null `finishedAt`
can never be marked not-alive by the grace-period sweep: whenever such a
player exists the phase is no longer `playing`, so `eliminateHolders` is
a complete no-op. -/
theorem finished_never_swept (g : Game) (hr : Reachable g) (sid : Nat) (p : Player)
    (hf : findP g.players sid = some p) (hfin : p.finishedAt.isSome = true) :
    eliminateHolders g = g := by
  by_cases hg : g.phase ≠ Phase.playing ∨ g.light ≠ Light.red
  · unfold eliminateHolders
    rw [if_pos hg]
  · push_neg at hg
    have hmem : p ∈ g.players := List.mem_of_find?_eq_some hf
    have hnone := reachable_playing_noFin g hr (Or.inl hg.1) p hmem
    rw [hnone] at hfin
    exact absurd hfin (by simp)

/-- A mid-match single-player state for the C9 witness family: playing,
green light, player 0 holding with progress `q`. -/
def gPlay (nm : String) (r : Nat) (q : ℚ) : Game :=
  { phase := Phase.playing
    light := Light.green
    players := [⟨0, nm, q, true, true, false, none⟩]
    round := r
    eliminationPending := false
    lightTimer := some Light.red
    graceTimer := false
    announced := none }

/-- The end state of the C9 witness trace: player 0 finished at time 7
and was announced winner. -/
def gOverWin (nm : String) (r : Nat) : Game :=
  { phase := Phase.gameOver
    light := Light.red
    players := [⟨0, nm, progressToWin, true, true, false, some 7⟩]
    round := r
    eliminationPending := false
    lightTimer := none
    graceTimer := false
    announced := some (some 0) }

/-- One non-finishing progress tick on a `gPlay` state. -/
theorem tick_mid (nm : String) (r : Nat) (q q' : ℚ)
    (hmin : min progressToWin (q + progressRate) = q')
    (hlt : ¬ progressToWin ≤ q') :
    progressTick (gPlay nm r q) 7 = gPlay nm r q' := by
  have hlt2 : ¬ progressToWin ≤ min progressToWin (q + progressRate) := by
    rw [hmin]
    exact hlt
  have hnoex : ¬ ∃ p2 ∈ (gPlay nm r q).players, playerFinishesNow p2 := by
    rintro ⟨p2, hp2, hfin⟩
    have hp2e : p2 = ⟨0, nm, q, true, true, false, none⟩ := List.mem_singleton.mp hp2
    subst hp2e
    exact hlt2 hfin.2.2.2
  unfold progressTick
  rw [if_neg (by simp [gPlay]), if_neg hnoex]
  unfold gPlay
  simp only [List.map_cons, List.map_nil]
  unfold tickPlayer
  dsimp only
  rw [if_pos ⟨rfl, rfl, rfl⟩, if_neg hlt2, hmin]

/-- The finishing progress tick on a `gPlay` state: the player crosses
the threshold, is stamped with time 7, and the match ends with that
player announced winner. -/
theorem tick_last (nm : String) (r : Nat) (q : ℚ)
    (hmin : min progressToWin (q + progressRate) = progressToWin)
    (hge : progressToWin ≤ min progressToWin (q + progressRate)) :
    progressTick (gPlay nm r q) 7 = gOverWin nm r := by
  have hex : ∃ p2 ∈ (gPlay nm r q).players, playerFinishesNow p2 :=
    ⟨⟨0, nm, q, true, true, false, none⟩, by simp [gPlay], ⟨rfl, rfl, rfl, hge⟩⟩
  unfold progressTick
  rw [if_neg (by simp [gPlay]), if_pos hex]
  unfold gPlay
  simp only [List.map_cons, List.map_nil]
  unfold tickPlayer
  dsimp only
  rw [if_pos ⟨rfl, rfl, rfl⟩, if_pos hge, hmin]
  rfl

/-- Transport of reachability along an evaluated step. -/
theorem reachable_of_step (g g' : Game) (e : Event) (hg : Reachable g)
    (he : step g e = g') : Reachable g' :=
  he ▸ Reachable.step g e hg

/-- The lobby state of the C9 witness trace after player 0 joins. -/
def gLobby : Game :=
  { initGame with players := [⟨0, "h", 0, true, false, false, none⟩] }

/-- The countdown state of the C9 witness trace. -/
def gCount : Game :=
  { gLobby with phase := Phase.countdown, round := 1 }

/-- C9 witness: a full single-player match driven to a finish (forty
progress ticks of 2.5 points), reaching `gOverWin "h" 1`, where player 0
has a non-null `finishedAt` and the sweep is a no-op. -/
theorem finished_never_swept_witness :
    findP (gOverWin "h" 1).players 0 =
      some ⟨0, "h", progressToWin, true, true, false, some 7⟩ ∧
    (some 7 : Option Nat).isSome = true ∧
    eliminateHolders (gOverWin "h" 1) = gOverWin "h" 1 := by
  have e1 : step initGame (Event.join 0 "h") = gLobby := rfl
  have e2 : step gLobby Event.start = gCount := rfl
  have e3 : step gCount Event.countdownDone =
      { gCount with
        phase := Phase.playing
        light := Light.green
        eliminationPending := false
        lightTimer := some Light.red } := rfl
  have e4 : step { gCount with
        phase := Phase.playing
        light := Light.green
        eliminationPending := false
        lightTimer := some Light.red } (Event.holdStart 0) = gPlay "h" 1 0 := rfl
  have r1 : Reachable gLobby := reachable_of_step _ _ _ Reachable.init e1
  have r2 : Reachable gCount := reachable_of_step _ _ _ r1 e2
  have r3 : Reachable { gCount with
        phase := Phase.playing
        light := Light.green
        eliminationPending := false
        lightTimer := some Light.red } := reachable_of_step _ _ _ r2 e3
  have r4 : Reachable (gPlay "h" 1 0) := reachable_of_step _ _ _ r3 e4
  have t0 : step (gPlay "h" 1 0) (Event.tick 7) = gPlay "h" 1 ((5 : ℚ) / 2) :=
    tick_mid "h" 1 0 ((5 : ℚ) / 2)
      (by rw [min_def]; norm_num [progressToWin, progressRate])
      (by norm_num [progressToWin])
  have s0 : Reachable (gPlay "h" 1 ((5 : ℚ) / 2)) := reachable_of_step _ _ _ r4 t0
  have t1 : step (gPlay "h" 1 ((5 : ℚ) / 2)) (Event.tick 7) = gPlay "h" 1 ((10 : ℚ) / 2) :=
    tick_mid "h" 1 ((5 : ℚ) / 2) ((10 : ℚ) / 2)
      (by rw [min_def]; norm_num [progressToWin, progressRate])
      (by norm_num [progressToWin])
  have s1 : Reachable (gPlay "h" 1 ((10 : ℚ) / 2)) := reachable_of_step _ _ _ s0 t1
  have t2 : step (gPlay "h" 1 ((10 : ℚ) / 2)) (Event.tick 7) = gPlay "h" 1 ((15 : ℚ) / 2) :=
    tick_mid "h" 1 ((10 : ℚ) / 2) ((15 : ℚ) / 2)
      (by rw [min_def]; norm_num [progressToWin, progressRate])
      (by norm_num [progressToWin])
  have s2 : Reachable (gPlay "h" 1 ((15 : ℚ) / 2)) := reachable_of_step _ _ _ s1 t2
  have t3 : step (gPlay "h" 1 ((15 : ℚ) / 2)) (Event.tick 7) = gPlay "h" 1 ((20 : ℚ) / 2) :=
    tick_mid "h" 1 ((15 : ℚ) / 2) ((20 : ℚ) / 2)
      (by rw [min_def]; norm_num [progressToWin, progressRate])
      (by norm_num [progressToWin])
  have s3 : Reachable (gPlay "h" 1 ((20 : ℚ) / 2)) := reachable_of_step _ _ _ s2 t3
  have t4 : step (gPlay "h" 1 ((20 : ℚ) / 2)) (Event.tick 7) = gPlay "h" 1 ((25 : ℚ) / 2) :=
    tick_mid "h" 1 ((20 : ℚ) / 2) ((25 : ℚ) / 2)
      (by rw [min_def]; norm_num [progressToWin, progressRate])
      (by norm_num [progressToWin])
  have s4 : Reachable (gPlay "h" 1 ((25 : ℚ) / 2)) := reachable_of_step _ _ _ s3 t4
  have t5 : step (gPlay "h" 1 ((25 : ℚ) / 2)) (Event.tick 7) = gPlay "h" 1 ((30 : ℚ) / 2) :=
    tick_mid "h" 1 ((25 : ℚ) / 2) ((30 : ℚ) / 2)
      (by rw [min_def]; norm_num [progressToWin, progressRate])
      (by norm_num [progressToWin])
  have s5 : Reachable (gPlay "h" 1 ((30 : ℚ) / 2)) := reachable_of_step _ _ _ s4 t5
  have t6 : step (gPlay "h" 1 ((30 : ℚ) / 2)) (Event.tick 7) = gPlay "h" 1 ((35 : ℚ) / 2) :=
    tick_mid "h" 1 ((30 : ℚ) / 2) ((35 : ℚ) / 2)
      (by rw [min_def]; norm_num [progressToWin, progressRate])
      (by norm_num [progressToWin])
  have s6 : Reachable (gPlay "h" 1 ((35 : ℚ) / 2)) := reachable_of_step _ _ _ s5 t6
  have t7 : step (gPlay "h" 1 ((35 : ℚ) / 2)) (Event.tick 7) = gPlay "h" 1 ((40 : ℚ) / 2) :=
    tick_mid "h" 1 ((35 : ℚ) / 2) ((40 : ℚ) / 2)
      (by rw [min_def]; norm_num [progressToWin, progressRate])
      (by norm_num [progressToWin])
  have s7 : Reachable (gPlay "h" 1 ((40 : ℚ) / 2)) := reachable_of_step _ _ _ s6 t7
  have t8 : step (gPlay "h" 1 ((40 : ℚ) / 2)) (Event.tick 7) = gPlay "h" 1 ((45 : ℚ) / 2) :=
    tick_mid "h" 1 ((40 : ℚ) / 2) ((45 : ℚ) / 2)
      (by rw [min_def]; norm_num [progressToWin, progressRate])
      (by norm_num [progressToWin])
  have s8 : Reachable (gPlay "h" 1 ((45 : ℚ) / 2)) := reachable_of_step _ _ _ s7 t8
  have t9 : step (gPlay "h" 1 ((45 : ℚ) / 2)) (Event.tick 7) = gPlay "h" 1 ((50 : ℚ) / 2) :=
    tick_mid "h" 1 ((45 : ℚ) / 2) ((50 : ℚ) / 2)
      (by rw [min_def]; norm_num [progressToWin, progressRate])
      (by norm_num [progressToWin])
  have s9 : Reachable (gPlay "h" 1 ((50 : ℚ) / 2)) := reachable_of_step _ _ _ s8 t9
  have t10 : step (gPlay "h" 1 ((50 : ℚ) / 2)) (Event.tick 7) = gPlay "h" 1 ((55 : ℚ) / 2) :=
    tick_mid "h" 1 ((50 : ℚ) / 2) ((55 : ℚ) / 2)
      (by rw [min_def]; norm_num [progressToWin, progressRate])
      (by norm_num [progressToWin])
  have s10 : Reachable (gPlay "h" 1 ((55 : ℚ) / 2)) := reachable_of_step _ _ _ s9 t10
  have t11 : step (gPlay "h" 1 ((55 : ℚ) / 2)) (Event.tick 7) = gPlay "h" 1 ((60 : ℚ) / 2) :=
    tick_mid "h" 1 ((55 : ℚ) / 2) ((60 : ℚ) / 2)
      (by rw [min_def]; norm_num [progressToWin, progressRate])
      (by norm_num [progressToWin])
  have s11 : Reachable (gPlay "h" 1 ((60 : ℚ) / 2)) := reachable_of_step _ _ _ s10 t11
  have t12 : step (gPlay "h" 1 ((60 : ℚ) / 2)) (Event.tick 7) = gPlay "h" 1 ((65 : ℚ) / 2) :=
    tick_mid "h" 1 ((60 : ℚ) / 2) ((65 : ℚ) / 2)
      (by rw [min_def]; norm_num [progressToWin, progressRate])
      (by norm_num [progressToWin])
  have s12 : Reachable (gPlay "h" 1 ((65 : ℚ) / 2)) := reachable_of_step _ _ _ s11 t12
  have t13 : step (gPlay "h" 1 ((65 : ℚ) / 2)) (Event.tick 7) = gPlay "h" 1 ((70 : ℚ) / 2) :=
    tick_mid "h" 1 ((65 : ℚ) / 2) ((70 : ℚ) / 2)
      (by rw [min_def]; norm_num [progressToWin, progressRate])
      (by norm_num [progressToWin])
  have s13 : Reachable (gPlay "h" 1 ((70 : ℚ) / 2)) := reachable_of_step _ _ _ s12 t13
  have t14 : step (gPlay "h" 1 ((70 : ℚ) / 2)) (Event.tick 7) = gPlay "h" 1 ((75 : ℚ) / 2) :=
    tick_mid "h" 1 ((70 : ℚ) / 2) ((75 : ℚ) / 2)
      (by rw [min_def]; norm_num [progressToWin, progressRate])
      (by norm_num [progressToWin])
  have s14 : Reachable (gPlay "h" 1 ((75 : ℚ) / 2)) := reachable_of_step _ _ _ s13 t14
  have t15 : step (gPlay "h" 1 ((75 : ℚ) / 2)) (Event.tick 7) = gPlay "h" 1 ((80 : ℚ) / 2) :=
    tick_mid "h" 1 ((75 : ℚ) / 2) ((80 : ℚ) / 2)
      (by rw [min_def]; norm_num [progressToWin, progressRate])
      (by norm_num [progressToWin])
  have s15 : Reachable (gPlay "h" 1 ((80 : ℚ) / 2)) := reachable_of_step _ _ _ s14 t15
  have t16 : step (gPlay "h" 1 ((80 : ℚ) / 2)) (Event.tick 7) = gPlay "h" 1 ((85 : ℚ) / 2) :=
    tick_mid "h" 1 ((80 : ℚ) / 2) ((85 : ℚ) / 2)
      (by rw [min_def]; norm_num [progressToWin, progressRate])
      (by norm_num [progressToWin])
  have s16 : Reachable (gPlay "h" 1 ((85 : ℚ) / 2)) := reachable_of_step _ _ _ s15 t16
  have t17 : step (gPlay "h" 1 ((85 : ℚ) / 2)) (Event.tick 7) = gPlay "h" 1 ((90 : ℚ) / 2) :=
    tick_mid "h" 1 ((85 : ℚ) / 2) ((90 : ℚ) / 2)
      (by rw [min_def]; norm_num [progressToWin, progressRate])
      (by norm_num [progressToWin])
  have s17 : Reachable (gPlay "h" 1 ((90 : ℚ) / 2)) := reachable_of_step _ _ _ s16 t17
  have t18 : step (gPlay "h" 1 ((90 : ℚ) / 2)) (Event.tick 7) = gPlay "h" 1 ((95 : ℚ) / 2) :=
    tick_mid "h" 1 ((90 : ℚ) / 2) ((95 : ℚ) / 2)
      (by rw [min_def]; norm_num [progressToWin, progressRate])
      (by norm_num [progressToWin])
  have s18 : Reachable (gPlay "h" 1 ((95 : ℚ) / 2)) := reachable_of_step _ _ _ s17 t18
  have t19 : step (gPlay "h" 1 ((95 : ℚ) / 2)) (Event.tick 7) = gPlay "h" 1 ((100 : ℚ) / 2) :=
    tick_mid "h" 1 ((95 : ℚ) / 2) ((100 : ℚ) / 2)
      (by rw [min_def]; norm_num [progressToWin, progressRate])
      (by norm_num [progressToWin])
  have s19 : Reachable (gPlay "h" 1 ((100 : ℚ) / 2)) := reachable_of_step _ _ _ s18 t19
  have t20 : step (gPlay "h" 1 ((100 : ℚ) / 2)) (Event.tick 7) = gPlay "h" 1 ((105 : ℚ) / 2) :=
    tick_mid "h" 1 ((100 : ℚ) / 2) ((105 : ℚ) / 2)
      (by rw [min_def]; norm_num [progressToWin, progressRate])
      (by norm_num [progressToWin])
  have s20 : Reachable (gPlay "h" 1 ((105 : ℚ) / 2)) := reachable_of_step _ _ _ s19 t20
  have t21 : step (gPlay "h" 1 ((105 : ℚ) / 2)) (Event.tick 7) = gPlay "h" 1 ((110 : ℚ) / 2) :=
    tick_mid "h" 1 ((105 : ℚ) / 2) ((110 : ℚ) / 2)
      (by rw [min_def]; norm_num [progressToWin, progressRate])
      (by norm_num [progressToWin])
  have s21 : Reachable (gPlay "h" 1 ((110 : ℚ) / 2)) := reachable_of_step _ _ _ s20 t21
  have t22 : step (gPlay "h" 1 ((110 : ℚ) / 2)) (Event.tick 7) = gPlay "h" 1 ((115 : ℚ) / 2) :=
    tick_mid "h" 1 ((110 : ℚ) / 2) ((115 : ℚ) / 2)
      (by rw [min_def]; norm_num [progressToWin, progressRate])
      (by norm_num [progressToWin])
  have s22 : Reachable (gPlay "h" 1 ((115 : ℚ) / 2)) := reachable_of_step _ _ _ s21 t22
  have t23 : step (gPlay "h" 1 ((115 : ℚ) / 2)) (Event.tick 7) = gPlay "h" 1 ((120 : ℚ) / 2) :=
    tick_mid "h" 1 ((115 : ℚ) / 2) ((120 : ℚ) / 2)
      (by rw [min_def]; norm_num [progressToWin, progressRate])
      (by norm_num [progressToWin])
  have s23 : Reachable (gPlay "h" 1 ((120 : ℚ) / 2)) := reachable_of_step _ _ _ s22 t23
  have t24 : step (gPlay "h" 1 ((120 : ℚ) / 2)) (Event.tick 7) = gPlay "h" 1 ((125 : ℚ) / 2) :=
    tick_mid "h" 1 ((120 : ℚ) / 2) ((125 : ℚ) / 2)
      (by rw [min_def]; norm_num [progressToWin, progressRate])
      (by norm_num [progressToWin])
  have s24 : Reachable (gPlay "h" 1 ((125 : ℚ) / 2)) := reachable_of_step _ _ _ s23 t24
  have t25 : step (gPlay "h" 1 ((125 : ℚ) / 2)) (Event.tick 7) = gPlay "h" 1 ((130 : ℚ) / 2) :=
    tick_mid "h" 1 ((125 : ℚ) / 2) ((130 : ℚ) / 2)
      (by rw [min_def]; norm_num [progressToWin, progressRate])
      (by norm_num [progressToWin])
  have s25 : Reachable (gPlay "h" 1 ((130 : ℚ) / 2)) := reachable_of_step _ _ _ s24 t25
  have t26 : step (gPlay "h" 1 ((130 : ℚ) / 2)) (Event.tick 7) = gPlay "h" 1 ((135 : ℚ) / 2) :=
    tick_mid "h" 1 ((130 : ℚ) / 2) ((135 : ℚ) / 2)
      (by rw [min_def]; norm_num [progressToWin, progressRate])
      (by norm_num [progressToWin])
  have s26 : Reachable (gPlay "h" 1 ((135 : ℚ) / 2)) := reachable_of_step _ _ _ s25 t26
  have t27 : step (gPlay "h" 1 ((135 : ℚ) / 2)) (Event.tick 7) = gPlay "h" 1 ((140 : ℚ) / 2) :=
    tick_mid "h" 1 ((135 : ℚ) / 2) ((140 : ℚ) / 2)
      (by rw [min_def]; norm_num [progressToWin, progressRate])
      (by norm_num [progressToWin])
  have s27 : Reachable (gPlay "h" 1 ((140 : ℚ) / 2)) := reachable_of_step _ _ _ s26 t27
  have t28 : step (gPlay "h" 1 ((140 : ℚ) / 2)) (Event.tick 7) = gPlay "h" 1 ((145 : ℚ) / 2) :=
    tick_mid "h" 1 ((140 : ℚ) / 2) ((145 : ℚ) / 2)
      (by rw [min_def]; norm_num [progressToWin, progressRate])
      (by norm_num [progressToWin])
  have s28 : Reachable (gPlay "h" 1 ((145 : ℚ) / 2)) := reachable_of_step _ _ _ s27 t28
  have t29 : step (gPlay "h" 1 ((145 : ℚ) / 2)) (Event.tick 7) = gPlay "h" 1 ((150 : ℚ) / 2) :=
    tick_mid "h" 1 ((145 : ℚ) / 2) ((150 : ℚ) / 2)
      (by rw [min_def]; norm_num [progressToWin, progressRate])
      (by norm_num [progressToWin])
  have s29 : Reachable (gPlay "h" 1 ((150 : ℚ) / 2)) := reachable_of_step _ _ _ s28 t29
  have t30 : step (gPlay "h" 1 ((150 : ℚ) / 2)) (Event.tick 7) = gPlay "h" 1 ((155 : ℚ) / 2) :=
    tick_mid "h" 1 ((150 : ℚ) / 2) ((155 : ℚ) / 2)
      (by rw [min_def]; norm_num [progressToWin, progressRate])
      (by norm_num [progressToWin])
  have s30 : Reachable (gPlay "h" 1 ((155 : ℚ) / 2)) := reachable_of_step _ _ _ s29 t30
  have t31 : step (gPlay "h" 1 ((155 : ℚ) / 2)) (Event.tick 7) = gPlay "h" 1 ((160 : ℚ) / 2) :=
    tick_mid "h" 1 ((155 : ℚ) / 2) ((160 : ℚ) / 2)
      (by rw [min_def]; norm_num [progressToWin, progressRate])
      (by norm_num [progressToWin])
  have s31 : Reachable (gPlay "h" 1 ((160 : ℚ) / 2)) := reachable_of_step _ _ _ s30 t31
  have t32 : step (gPlay "h" 1 ((160 : ℚ) / 2)) (Event.tick 7) = gPlay "h" 1 ((165 : ℚ) / 2) :=
    tick_mid "h" 1 ((160 : ℚ) / 2) ((165 : ℚ) / 2)
      (by rw [min_def]; norm_num [progressToWin, progressRate])
      (by norm_num [progressToWin])
  have s32 : Reachable (gPlay "h" 1 ((165 : ℚ) / 2)) := reachable_of_step _ _ _ s31 t32
  have t33 : step (gPlay "h" 1 ((165 : ℚ) / 2)) (Event.tick 7) = gPlay "h" 1 ((170 : ℚ) / 2) :=
    tick_mid "h" 1 ((165 : ℚ) / 2) ((170 : ℚ) / 2)
      (by rw [min_def]; norm_num [progressToWin, progressRate])
      (by norm_num [progressToWin])
  have s33 : Reachable (gPlay "h" 1 ((170 : ℚ) / 2)) := reachable_of_step _ _ _ s32 t33
  have t34 : step (gPlay "h" 1 ((170 : ℚ) / 2)) (Event.tick 7) = gPlay "h" 1 ((175 : ℚ) / 2) :=
    tick_mid "h" 1 ((170 : ℚ) / 2) ((175 : ℚ) / 2)
      (by rw [min_def]; norm_num [progressToWin, progressRate])
      (by norm_num [progressToWin])
  have s34 : Reachable (gPlay "h" 1 ((175 : ℚ) / 2)) := reachable_of_step _ _ _ s33 t34
  have t35 : step (gPlay "h" 1 ((175 : ℚ) / 2)) (Event.tick 7) = gPlay "h" 1 ((180 : ℚ) / 2) :=
    tick_mid "h" 1 ((175 : ℚ) / 2) ((180 : ℚ) / 2)
      (by rw [min_def]; norm_num [progressToWin, progressRate])
      (by norm_num [progressToWin])
  have s35 : Reachable (gPlay "h" 1 ((180 : ℚ) / 2)) := reachable_of_step _ _ _ s34 t35
  have t36 : step (gPlay "h" 1 ((180 : ℚ) / 2)) (Event.tick 7) = gPlay "h" 1 ((185 : ℚ) / 2) :=
    tick_mid "h" 1 ((180 : ℚ) / 2) ((185 : ℚ) / 2)
      (by rw [min_def]; norm_num [progressToWin, progressRate])
      (by norm_num [progressToWin])
  have s36 : Reachable (gPlay "h" 1 ((185 : ℚ) / 2)) := reachable_of_step _ _ _ s35 t36
  have t37 : step (gPlay "h" 1 ((185 : ℚ) / 2)) (Event.tick 7) = gPlay "h" 1 ((190 : ℚ) / 2) :=
    tick_mid "h" 1 ((185 : ℚ) / 2) ((190 : ℚ) / 2)
      (by rw [min_def]; norm_num [progressToWin, progressRate])
      (by norm_num [progressToWin])
  have s37 : Reachable (gPlay "h" 1 ((190 : ℚ) / 2)) := reachable_of_step _ _ _ s36 t37
  have t38 : step (gPlay "h" 1 ((190 : ℚ) / 2)) (Event.tick 7) = gPlay "h" 1 ((195 : ℚ) / 2) :=
    tick_mid "h" 1 ((190 : ℚ) / 2) ((195 : ℚ) / 2)
      (by rw [min_def]; norm_num [progressToWin, progressRate])
      (by norm_num [progressToWin])
  have s38 : Reachable (gPlay "h" 1 ((195 : ℚ) / 2)) := reachable_of_step _ _ _ s37 t38
  have t39 : step (gPlay "h" 1 ((195 : ℚ) / 2)) (Event.tick 7) = gOverWin "h" 1 :=
    tick_last "h" 1 ((195 : ℚ) / 2)
      (by rw [min_def]; norm_num [progressToWin, progressRate])
      (by rw [min_def]; norm_num [progressToWin, progressRate])
  have s39 : Reachable (gOverWin "h" 1) := reachable_of_step _ _ _ s38 t39
  exact ⟨rfl, rfl,
    finished_never_swept (gOverWin "h" 1) s39 0
      ⟨0, "h", progressToWin, true, true, false, some 7⟩ rfl rfl⟩
